import Mathlib

/-!
Shallow embedding of the implied-volatility calculator in
`Mako_Global/MakoInterviewPack/solution.py`.

Real-number primitives (`np.exp`, `np.log`, `np.sqrt`, `norm.cdf`,
`norm.pdf`) are modelled as an abstract record of functions on `ℚ`, so that
all definitions stay computable while the algebraic structure of every
formula is kept exactly as in the source.  Python exceptions are modelled
with `Except` / explicit error constructors; the `np.nan` sentinel returned
by the root finders is a dedicated constructor of `RootOut`.  The
root-finding loops (`while abs(b-a) > self.accuracy`) are modelled with
explicit fuel, with a `diverge` marker for fuel exhaustion; the bisection
wrapper computes a provably sufficient amount of fuel.
-/

namespace MakoIV

/-- Abstract numeric primitives standing for `np.exp`, `np.log`, `np.sqrt`,
`scipy.stats.norm.cdf` and `scipy.stats.norm.pdf`. -/
structure MathPrims where
  exp : ℚ → ℚ
  log : ℚ → ℚ
  sqrt : ℚ → ℚ
  cdf : ℚ → ℚ
  pdf : ℚ → ℚ

/-- Python exceptions that the translated code can raise.
`keyError` models the `KeyError` from `products[product]` in `getProduct`;
`nameErrorOptionType` / `nameErrorModelType` model the two
`NameError("...")` raises in `Option.getOptionPrice`;
`zeroDivisionError` models a float division by zero in a guarded-division
refinement; `unboundLocalError` models Python's `UnboundLocalError` when
`__bisectionMethod` executes `return c` without the loop body ever having
assigned `c`. -/
inductive PyErr where
  | keyError : PyErr
  | nameErrorOptionType : PyErr
  | nameErrorModelType : PyErr
  | zeroDivisionError : PyErr
  | unboundLocalError : PyErr
deriving DecidableEq, Repr

/-- Outcome of a root-finder call: the `np.nan` sentinel, a numeric result,
a raised exception, or fuel exhaustion (modelling non-termination of the
unbounded `while` loop). -/
inductive RootOut where
  | nan : RootOut
  | val : ℚ → RootOut
  | err : PyErr → RootOut
  | diverge : RootOut
deriving DecidableEq, Repr

/-- The loop of `RootFinder.__bisectionMethod` (solution.py lines 43-54),
with explicit fuel.  The `c?` argument models the scope of the Python local
`c`: it is `none` until the loop body first assigns `c`, and `return c`
with `c?` still `none` is Python's `UnboundLocalError`. -/
def bisectionLoop (tol : ℚ) (f : ℚ → ℚ) : ℕ → ℚ → ℚ → Option ℚ → RootOut
  | 0, a, b, c? =>
    if |b - a| > tol then .diverge
    else match c? with
      | some c => .val c
      | none => .err .unboundLocalError
  | n + 1, a, b, c? =>
    if |b - a| > tol then
      let c := (a + b) / 2
      if f c = 0 then .val c
      else if f a * f c > 0 then bisectionLoop tol f n c b (some c)
      else bisectionLoop tol f n a c (some c)
    else match c? with
      | some c => .val c
      | none => .err .unboundLocalError

/-- Fuel that provably suffices for `bisectionLoop` when `0 < tol`:
the interval length halves at every iteration. -/
def bisectionFuel (tol a b : ℚ) : ℕ := (⌈|b - a| / tol⌉).toNat + 1

/-- `RootFinder.__bisectionMethod` (solution.py lines 25-54): the
no-sign-change sentinel check followed by the halving loop.  Default
arguments in the source are `a=0`, `b=100`; callers that omit them (as
`Option.impliedVol` does) get that bracket. -/
def bisectionMethod (tol : ℚ) (f : ℚ → ℚ) (a b : ℚ) : RootOut :=
  if f a * f b > 0 then .nan
  else bisectionLoop tol f (bisectionFuel tol a b) a b none

/-- State of Dekker's method: the contrapoint `a`, current best `b`,
previous best `c`, and the memoised function values `fa`, `fb`, `fc`
(solution.py lines 73-78). -/
structure DekkerState where
  a : ℚ
  fa : ℚ
  b : ℚ
  fb : ℚ
  c : ℚ
  fc : ℚ
deriving DecidableEq, Repr

/-- Lines 83-85: if `fb*fc > 0`, reset `c := a`, `fc := fa` to restore an
opposite-sign contrapoint. -/
def dekkerReset (s : DekkerState) : DekkerState :=
  if s.fb * s.fc > 0 then { s with c := s.a, fc := s.fa } else s

/-- Lines 87-93: if `|fc| < |fb|`, perform the sequential swaps
`a=b; fa=fb; b=c; fb=fc; c=a; fc=fa` so that `b` carries the smaller
function value. -/
def dekkerSwap (s : DekkerState) : DekkerState :=
  if |s.fc| < |s.fb| then
    { a := s.b, fa := s.fb, b := s.c, fb := s.fc, c := s.b, fc := s.fb }
  else s

/-- Lines 96-110: the proposed new iterate.  `m` is the bisection midpoint
of `b` and `c`; `p`, `q` are the sign-normalised secant numerator and
denominator built from `(a, fa)` and `(b, fb)`; the secant point `b + p/q`
is taken when `p <= (m-b)*q`, otherwise the midpoint `m`.
The quotient `p / q` in the source is an unguarded float division, and the
accepted branch can reach `q = 0` only together with `p = 0` (the test is
then `0 <= 0`): there the source computes `0.0/0.0` - nan when the
operands are numpy float64 scalars (the loop guard `nan > tol` is then
false, so `__dekkersMethod` returns nan), or `ZeroDivisionError` for plain
Python floats.  Rational arithmetic cannot track either outcome, so the
embedding guards the division and returns `none` on exactly that corner
instead of inventing a rational iterate. -/
def dekkerProposal (a fa b fb c : ℚ) : Option ℚ :=
  let m := (b + c) / 2
  let p0 := (b - a) * fb
  let p := if p0 ≥ 0 then p0 else -p0
  let q := if p0 ≥ 0 then fa - fb else fb - fa
  if p ≤ (m - b) * q then
    if q = 0 then none else some (b + p / q)
  else some m

/-- Lines 96-111: one secant-or-bisection update.  After computing the
proposal, the source sets `a = b; fa = fb` (lines 104-105) and re-evaluates
`fb = f(b)` at the new `b`; `c`, `fc` are untouched.  A division fault in
the proposal propagates. -/
def dekkerSecant (f : ℚ → ℚ) (s : DekkerState) : Option DekkerState :=
  match dekkerProposal s.a s.fa s.b s.fb s.c with
  | none => none
  | some bNew =>
    some { a := s.b, fa := s.fb, b := bNew, fb := f bNew, c := s.c, fc := s.fc }

/-- One full iteration of the `while` body of `__dekkersMethod`
(lines 80-111): reset, swap, then the secant-or-bisection update. -/
def dekkerBody (f : ℚ → ℚ) (s : DekkerState) : Option DekkerState :=
  dekkerSecant f (dekkerSwap (dekkerReset s))

/-- The `while abs(b-a) > self.accuracy` loop of `__dekkersMethod`
(lines 80-113), with explicit fuel.  On exit the method returns `b`; a
division fault in the body (see `dekkerProposal`) aborts the loop with the
division-by-zero marker. -/
def dekkersLoop (tol : ℚ) (f : ℚ → ℚ) : ℕ → DekkerState → RootOut
  | 0, s => if |s.b - s.a| > tol then .diverge else .val s.b
  | n + 1, s =>
    if |s.b - s.a| > tol then
      match dekkerBody f s with
      | none => .err .zeroDivisionError
      | some t => dekkersLoop tol f n t
    else .val s.b

/-- `RootFinder.__dekkersMethod` (solution.py lines 56-113): the
no-sign-change sentinel check, initialisation `c = a; fc = fa`
(lines 73-78), then the loop.  The source loop has no iteration cap, so
the embedding takes the fuel as a parameter. -/
def dekkersMethod (fuel : ℕ) (tol : ℚ) (f : ℚ → ℚ) (a b : ℚ) : RootOut :=
  if f a * f b > 0 then .nan
  else dekkersLoop tol f fuel
    { a := a, fa := f a, b := b, fb := f b, c := a, fc := f a }

/-- The concrete subclass an option was built by (`Stock` or `Future`);
models the Python object's class for method dispatch. -/
inductive ProductKind where
  | stock : ProductKind
  | future : ProductKind
deriving DecidableEq, Repr

/-- `Option.__init__` state (solution.py lines 118-130) after the subclass
constructor has run: market price `V_mkt`, spot `X`, strike `K`,
`tau = tauDays / 365` (the raw day count divided by 365, line 124), rate
`r`, the type strings, and the subclass-assigned put-call parity offset.
No input validation of any kind is performed by the source constructors. -/
structure OptionData where
  productType : ProductKind
  V_mkt : ℚ
  X : ℚ
  K : ℚ
  tau : ℚ
  r : ℚ
  optionType : String
  modelType : String
  parityOffset : ℚ
deriving DecidableEq, Repr

/-- `Stock.__init__` (lines 213-217): runs the base constructor and sets
`PutCallParityOffset = K * np.exp(-r * tau) - X`, where `tau` is the *raw
constructor argument* (a day count), not the stored `self.tau` in years. -/
def mkStock (P : MathPrims) (V_mkt X K tauDays r : ℚ)
    (optionType modelType : String) : OptionData :=
  { productType := .stock, V_mkt := V_mkt, X := X, K := K,
    tau := tauDays / 365, r := r,
    optionType := optionType, modelType := modelType,
    parityOffset := K * P.exp (-(r * tauDays)) - X }

/-- `Future.__init__` (lines 283-287): runs the base constructor and sets
`PutCallParityOffset = (K - X) * np.exp(-r * tau)`, where `tau` is again
the raw day-count argument. -/
def mkFuture (P : MathPrims) (V_mkt X K tauDays r : ℚ)
    (optionType modelType : String) : OptionData :=
  { productType := .future, V_mkt := V_mkt, X := X, K := K,
    tau := tauDays / 365, r := r,
    optionType := optionType, modelType := modelType,
    parityOffset := (K - X) * P.exp (-(r * tauDays)) }

namespace Stock

/-- `Stock.callOptionPriceBlackScholes` (lines 220-232): the plain
Black-Scholes call formula in `self.tau` (years). -/
def callOptionPriceBlackScholes (P : MathPrims) (o : OptionData)
    (sigma : ℚ) : ℚ :=
  let d1 := (P.log (o.X / o.K) + (o.r + (1 / 2) * sigma ^ 2) * o.tau) /
    (sigma * P.sqrt o.tau)
  let d2 := d1 - sigma * P.sqrt o.tau
  o.X * P.cdf d1 - P.exp (-(o.r * o.tau)) * o.K * P.cdf d2

/-- `Stock.putOptionPriceBlackScholes` (lines 236-243): call price plus the
stored parity offset. -/
def putOptionPriceBlackScholes (P : MathPrims) (o : OptionData)
    (sigma : ℚ) : ℚ :=
  callOptionPriceBlackScholes P o sigma + o.parityOffset

/-- `Stock.callOptionPriceBachelier` (lines 246-264): discounted strike
`K* = K e^{-r tau}`, integrated volatility
`v = (sigma^2 / (2 r)) (1 - e^{-2 r tau})`, `d = (X - K*)/v`, price
`(X - K*) cdf d + v pdf d`.  Note the unguarded division by `self.r`. -/
def callOptionPriceBachelier (P : MathPrims) (o : OptionData)
    (sigma : ℚ) : ℚ :=
  let kStar := o.K * P.exp (-(o.r * o.tau))
  let v := (1 / 2) * (sigma ^ 2 / o.r) * (1 - P.exp (-(2 * o.r * o.tau)))
  let d := (o.X - kStar) / v
  (o.X - kStar) * P.cdf d + v * P.pdf d

/-- `Stock.putOptionPriceBachelier` (lines 267-278): call price plus the
stored parity offset. -/
def putOptionPriceBachelier (P : MathPrims) (o : OptionData)
    (sigma : ℚ) : ℚ :=
  callOptionPriceBachelier P o sigma + o.parityOffset

end Stock

namespace Future

/-- `Future.callOptionPriceBlackScholes` (lines 290-302): the Black-76
formula. -/
def callOptionPriceBlackScholes (P : MathPrims) (o : OptionData)
    (sigma : ℚ) : ℚ :=
  let d1 := (P.log (o.X / o.K) + (1 / 2) * sigma ^ 2 * o.tau) /
    (sigma * P.sqrt o.tau)
  let d2 := d1 - sigma * P.sqrt o.tau
  P.exp (-(o.r * o.tau)) * (o.X * P.cdf d1 - o.K * P.cdf d2)

/-- `Future.putOptionPriceBlackScholes` (lines 305-316): call price plus
the stored parity offset. -/
def putOptionPriceBlackScholes (P : MathPrims) (o : OptionData)
    (sigma : ℚ) : ℚ :=
  callOptionPriceBlackScholes P o sigma + o.parityOffset

/-- `Future.callOptionPriceBachelier` (lines 319-332): normal model for a
futures price, `d = (X - K)/(sigma sqrt tau)`,
price `(X - K) cdf d + sigma sqrt(tau) pdf d`. -/
def callOptionPriceBachelier (P : MathPrims) (o : OptionData)
    (sigma : ℚ) : ℚ :=
  let d := (o.X - o.K) / (sigma * P.sqrt o.tau)
  (o.X - o.K) * P.cdf d + sigma * P.sqrt o.tau * P.pdf d

/-- `Future.putOptionPriceBachelier` (lines 335-342): call price plus the
stored parity offset. -/
def putOptionPriceBachelier (P : MathPrims) (o : OptionData)
    (sigma : ℚ) : ℚ :=
  callOptionPriceBachelier P o sigma + o.parityOffset

end Future

namespace OptionData

/-- Virtual dispatch of `callOptionPriceBlackScholes` on the object's
class. -/
def callOptionPriceBlackScholes (P : MathPrims) (o : OptionData) : ℚ → ℚ :=
  match o.productType with
  | .stock => Stock.callOptionPriceBlackScholes P o
  | .future => Future.callOptionPriceBlackScholes P o

/-- Virtual dispatch of `putOptionPriceBlackScholes` on the object's
class. -/
def putOptionPriceBlackScholes (P : MathPrims) (o : OptionData) : ℚ → ℚ :=
  match o.productType with
  | .stock => Stock.putOptionPriceBlackScholes P o
  | .future => Future.putOptionPriceBlackScholes P o

/-- Virtual dispatch of `callOptionPriceBachelier` on the object's
class. -/
def callOptionPriceBachelier (P : MathPrims) (o : OptionData) : ℚ → ℚ :=
  match o.productType with
  | .stock => Stock.callOptionPriceBachelier P o
  | .future => Future.callOptionPriceBachelier P o

/-- Virtual dispatch of `putOptionPriceBachelier` on the object's class. -/
def putOptionPriceBachelier (P : MathPrims) (o : OptionData) : ℚ → ℚ :=
  match o.productType with
  | .stock => Stock.putOptionPriceBachelier P o
  | .future => Future.putOptionPriceBachelier P o

/-- `Option.getOptionPrice` (solution.py lines 160-188): selects the price
method from the `ModelType` / `OptionType` strings, raising
`NameError("Option Type not recognized")` or
`NameError("Model Type not supported")` for values outside the enums.
Note that these checks run only here - at price/solve time - never at
construction time. -/
def getOptionPrice (P : MathPrims) (o : OptionData) :
    Except PyErr (ℚ → ℚ) :=
  if o.modelType = ("BlackScholes") then
    if o.optionType = ("Call") then .ok (callOptionPriceBlackScholes P o)
    else if o.optionType = ("Put") then .ok (putOptionPriceBlackScholes P o)
    else .error .nameErrorOptionType
  else if o.modelType = ("Bachelier") then
    if o.optionType = ("Call") then .ok (callOptionPriceBachelier P o)
    else if o.optionType = ("Put") then .ok (putOptionPriceBachelier P o)
    else .error .nameErrorOptionType
  else .error .nameErrorModelType

/-- `Option.impliedVol` (solution.py lines 190-199): builds the mispricing
objective `x ↦ price(x) - V_mkt` and hands it to the configured root-find
method *with no bracket arguments*, so the method's own defaults `a=0`,
`b=100` are always used.  The `method` argument stands for the bound method
returned by `rootFind.getRootFindMethod()`, as a function of
`(objective, a, b)` with the defaults applied here. -/
def impliedVol (P : MathPrims)
    (method : (ℚ → ℚ) → ℚ → ℚ → RootOut) (o : OptionData) :
    Except PyErr RootOut :=
  match getOptionPrice P o with
  | .error e => .error e
  | .ok price => .ok (method (fun x => price x - o.V_mkt) 0 100)

end OptionData

/-- `getProduct` (solution.py lines 201-209): the factory.  The source
eagerly constructs both `Stock(*args)` and `Future(*args)` (neither
constructor can raise) and indexes the dictionary with `product`; an
unknown key raises `KeyError`. -/
def getProduct (P : MathPrims) (product : String)
    (V_mkt X K tauDays r : ℚ) (optionType modelType : String) :
    Except PyErr OptionData :=
  if product = ("Stock") then
    .ok (mkStock P V_mkt X K tauDays r optionType modelType)
  else if product = ("Future") then
    .ok (mkFuture P V_mkt X K tauDays r optionType modelType)
  else .error .keyError

/-- Guarded rational division: models a refinement of the source in which
every float division is checked, surfacing Python's division-by-zero
error branch. -/
def checkedDiv (x y : ℚ) : Except PyErr ℚ :=
  if y = 0 then .error .zeroDivisionError else .ok (x / y)

/-- `Stock.callOptionPriceBachelier` (lines 246-264) under guarded
division: identical arithmetic to `Stock.callOptionPriceBachelier`, with
the two divisions (`sigma**2 / self.r` and `(X - K*) / v_tT`) checked. -/
def callOptionPriceBachelierChecked (P : MathPrims) (o : OptionData)
    (sigma : ℚ) : Except PyErr ℚ := do
  let kStar := o.K * P.exp (-(o.r * o.tau))
  let ratio ← checkedDiv (sigma ^ 2) o.r
  let v := (1 / 2) * ratio * (1 - P.exp (-(2 * o.r * o.tau)))
  let d ← checkedDiv (o.X - kStar) v
  return (o.X - kStar) * P.cdf d + v * P.pdf d

/-- Modelled from the spec: `solveImpliedVol(option, rootFinder,
bracketLow=0, bracketHigh=100)` as described in spec section 4.4, with
caller-configurable bracket bounds.  The source's `Option.impliedVol` has
no such parameters; this definition exists only to compare the spec's
claimed interface against the code's actual one. -/
def solveImpliedVolSpec (P : MathPrims)
    (method : (ℚ → ℚ) → ℚ → ℚ → RootOut) (o : OptionData)
    (bracketLow bracketHigh : ℚ) : Except PyErr RootOut :=
  match OptionData.getOptionPrice P o with
  | .error e => .error e
  | .ok price =>
    .ok (method (fun x => price x - o.V_mkt) bracketLow bracketHigh)

/-- Modelled from the spec (section 4.2 table): the Stock parity offset
`K e^{-r tau} - X` with `tau` the *stored* time to expiry in years,
i.e. `tauDays / 365` - "the same tau used by the price formulas". -/
def parityOffsetStockSpec (P : MathPrims) (K X r tauDays : ℚ) : ℚ :=
  K * P.exp (-(r * (tauDays / 365))) - X

/-- Modelled from the spec (section 4.2 table): the Future parity offset
`(K - X) e^{-r tau}` with `tau = tauDays / 365` in years. -/
def parityOffsetFutureSpec (P : MathPrims) (K X r tauDays : ℚ) : ℚ :=
  (K - X) * P.exp (-(r * (tauDays / 365)))

/-- Primitives instantiated with the identity function: a concrete,
computable `MathPrims` with an injective `exp`, used for witnesses and
counterexamples. -/
def idPrims : MathPrims :=
  { exp := fun x => x, log := fun x => x, sqrt := fun x => x,
    cdf := fun x => x, pdf := fun x => x }

/-- Primitives for a concrete counterexample option: a constant-zero `cdf`,
constant-one `pdf` and identity `sqrt` make the Future/Bachelier call price
collapse to `sigma` itself, so the implied-volatility objective is linear
and fully computable. -/
def cexPrims : MathPrims :=
  { exp := fun x => x, log := fun x => x, sqrt := fun x => x,
    cdf := fun _ => 0, pdf := fun _ => 1 }

/-- A concrete Future/Bachelier call whose price function (under
`cexPrims`) is `sigma ↦ sigma` and whose market price is `200`: its unique
implied volatility, `200`, lies outside the bracket `[0, 100]` that
`Option.impliedVol` always uses. -/
def cexOpt : OptionData := mkFuture cexPrims 200 50 50 365 0 ("Call") ("Bachelier")

/-- The constant-zero objective, used for concrete root-finder inputs. -/
def zeroFn : ℚ → ℚ := fun _ => 0

/-- A constant-positive objective, used for concrete no-sign-change
inputs. -/
def oneFn : ℚ → ℚ := fun _ => 1

/-- A simple strictly increasing objective with root `2`, used as a
concrete bisection input. -/
def subFn : ℚ → ℚ := fun x => x - 2

/-- A simple objective with root `50`, used as a concrete Dekker input. -/
def dekFn : ℚ → ℚ := fun x => x - 50

/-- A concrete Dekker state with oppositely signed `fa`, `fb` (as after
initialisation from a valid bracket). -/
def dkState0 : DekkerState :=
  { a := 0, fa := -1, b := 100, fb := 1, c := 0, fc := -1 }

/-- What one iteration of the source's Dekker loop does, phrased as the
spec describes it (spec section 4.1, steps 1-5): after the reset and swap
phases the pair `(b, c)` brackets a sign change and `b` carries the
smaller absolute function value; whenever the body produces a state (the
secant division does not fault), the new iterate is either the midpoint
`m = (b+c)/2` or the secant point from `(a, fa)`, `(b, fb)`, and in either
case lies between `b` and `m`, the old best `b` becomes the new
contrapoint `a`, and `f` is re-evaluated at the new `b`; the body faults
exactly on the `0.0/0.0` corner `fa = fb` with `(b - a) * fb = 0`; the
loop iterates exactly this body while `|b - a| > tol` (aborting with the
division marker on a fault) and returns `b` on exit. -/
def DekkerIterationSpec (tol : ℚ) (f : ℚ → ℚ) (s : DekkerState) : Prop :=
  let s1 := dekkerSwap (dekkerReset s)
  let m := (s1.b + s1.c) / 2
  s1.fb * s1.fc ≤ 0 ∧
  |s1.fb| ≤ |s1.fc| ∧
  dekkerBody f s = dekkerSecant f s1 ∧
  (∀ t, dekkerBody f s = some t →
    t.a = s1.b ∧ t.fa = s1.fb ∧ t.c = s1.c ∧ t.fc = s1.fc ∧
    t.fb = f t.b ∧
    (t.b = m ∨ t.b = s1.b + (s1.b - s1.a) * s1.fb / (s1.fa - s1.fb)) ∧
    min s1.b m ≤ t.b ∧ t.b ≤ max s1.b m) ∧
  (dekkerBody f s = none ↔ s1.fa = s1.fb ∧ (s1.b - s1.a) * s1.fb = 0) ∧
  (∀ n, |s.b - s.a| > tol → ∀ t, dekkerBody f s = some t →
    dekkersLoop tol f (n + 1) s = dekkersLoop tol f n t) ∧
  (∀ n, |s.b - s.a| > tol → dekkerBody f s = none →
    dekkersLoop tol f (n + 1) s = .err .zeroDivisionError) ∧
  (¬ |s.b - s.a| > tol → ∀ n, dekkersLoop tol f n s = .val s.b)

/-! ## Helper lemmas -/

/-- Dispatch of `getOptionPrice` for a call under the Bachelier model. -/
lemma getOptionPrice_call_bachelier (P : MathPrims) (o : OptionData)
    (h1 : o.optionType = ("Call")) (h2 : o.modelType = ("Bachelier")) :
    OptionData.getOptionPrice P o
      = .ok (OptionData.callOptionPriceBachelier P o) := by
  simp [OptionData.getOptionPrice, h1, h2]

/-- `impliedVol` applies the root-find method to the mispricing objective
over the method defaults `a = 0`, `b = 100`. -/
lemma impliedVol_eq (P : MathPrims) (M : (ℚ → ℚ) → ℚ → ℚ → RootOut)
    (o : OptionData) (pf : ℚ → ℚ)
    (h : OptionData.getOptionPrice P o = .ok pf) :
    OptionData.impliedVol P M o = .ok (M (fun x => pf x - o.V_mkt) 0 100) := by
  simp [OptionData.impliedVol, h]

/-- Under `cexPrims`, the `cexOpt` price function is the identity. -/
lemma cexPriceAt (x : ℚ) :
    OptionData.callOptionPriceBachelier cexPrims cexOpt x = x := by
  simp only [OptionData.callOptionPriceBachelier, cexOpt, mkFuture,
    Future.callOptionPriceBachelier, cexPrims]
  norm_num

/-- When the loop guard already fails and `c` has been assigned, the
bisection loop returns `c` whatever the remaining fuel. -/
lemma bisectionLoop_exit (tol : ℚ) (f : ℚ → ℚ) (n : ℕ) (a b c : ℚ)
    (h : ¬ |b - a| > tol) :
    bisectionLoop tol f n a b (some c) = .val c := by
  cases n <;> simp only [bisectionLoop, if_neg h]

/-- Sign bookkeeping for the bisection step: if `x, y` have non-positive
product and `x, z` have positive product, then `z, y` have non-positive
product. -/
lemma bracket_step (x y z : ℚ) (hxy : x * y ≤ 0) (hxz : x * z > 0) :
    z * y ≤ 0 := by
  rcases mul_pos_iff.mp hxz with ⟨hx, hz⟩ | ⟨hx, hz⟩
  · have hy : y ≤ 0 := by nlinarith
    exact mul_nonpos_iff.mpr (Or.inl ⟨hz.le, hy⟩)
  · have hy : 0 ≤ y := by nlinarith
    exact mul_nonpos_iff.mpr (Or.inr ⟨hz.le, hy⟩)

/-- The midpoint halves the interval length, upper-bound form. -/
lemma abs_sub_mid_right (a b : ℚ) : |b - (a + b) / 2| = |b - a| / 2 := by
  have h : b - (a + b) / 2 = (b - a) / 2 := by ring
  rw [h, abs_div]
  norm_num

/-- The midpoint halves the interval length, lower-bound form. -/
lemma abs_mid_sub_left (a b : ℚ) : |(a + b) / 2 - a| = |b - a| / 2 := by
  have h : (a + b) / 2 - a = (b - a) / 2 := by ring
  rw [h, abs_div]
  norm_num

/-- Soundness of the bisection loop: starting from a sign-changing
interval longer than the tolerance, with enough fuel, the loop returns a
midpoint `c` that either is an exact root, or is an endpoint of a
sign-changing interval of length at most the tolerance. -/
lemma bisectionLoop_sound (tol : ℚ) (f : ℚ → ℚ) :
    ∀ (n : ℕ) (a b : ℚ) (c? : Option ℚ), f a * f b ≤ 0 →
      |b - a| ≤ tol * 2 ^ n → tol < |b - a| →
      ∃ c, bisectionLoop tol f n a b c? = .val c ∧
        (f c = 0 ∨ ∃ lo hi, f lo * f hi ≤ 0 ∧ |hi - lo| ≤ tol ∧
          (c = lo ∨ c = hi)) := by
  intro n
  induction n with
  | zero =>
    intro a b c? _ hbound hlen
    rw [pow_zero, mul_one] at hbound
    exact absurd hbound (not_le.mpr hlen)
  | succ n ih =>
    intro a b c? hbr hbound hlen
    have hgt : |b - a| > tol := hlen
    rw [pow_succ] at hbound
    simp only [bisectionLoop, if_pos hgt]
    by_cases h0 : f ((a + b) / 2) = 0
    · exact ⟨(a + b) / 2, by rw [if_pos h0], Or.inl h0⟩
    rw [if_neg h0]
    by_cases hs : f a * f ((a + b) / 2) > 0
    · rw [if_pos hs]
      have hbr2 : f ((a + b) / 2) * f b ≤ 0 :=
        bracket_step (f a) (f b) (f ((a + b) / 2)) hbr hs
      have hhalf : |b - (a + b) / 2| = |b - a| / 2 := abs_sub_mid_right a b
      have hbound2 : |b - (a + b) / 2| ≤ tol * 2 ^ n := by
        rw [hhalf]; linarith
      by_cases hl : tol < |b - (a + b) / 2|
      · exact ih ((a + b) / 2) b (some ((a + b) / 2)) hbr2 hbound2 hl
      · refine ⟨(a + b) / 2,
          bisectionLoop_exit tol f n ((a + b) / 2) b ((a + b) / 2) hl,
          Or.inr ⟨(a + b) / 2, b, hbr2, not_lt.mp hl, Or.inl rfl⟩⟩
    · rw [if_neg hs]
      have hbr2 : f a * f ((a + b) / 2) ≤ 0 := not_lt.mp hs
      have hhalf : |(a + b) / 2 - a| = |b - a| / 2 := abs_mid_sub_left a b
      have hbound2 : |(a + b) / 2 - a| ≤ tol * 2 ^ n := by
        rw [hhalf]; linarith
      by_cases hl : tol < |(a + b) / 2 - a|
      · exact ih a ((a + b) / 2) (some ((a + b) / 2)) hbr2 hbound2 hl
      · refine ⟨(a + b) / 2,
          bisectionLoop_exit tol f n a ((a + b) / 2) ((a + b) / 2) hl,
          Or.inr ⟨a, (a + b) / 2, hbr2, not_lt.mp hl, Or.inr rfl⟩⟩

/-- The fuel chosen by `bisectionMethod` is large enough: the interval
length is at most `tol * 2 ^ fuel`. -/
lemma abs_le_fuel (tol a b : ℚ) (htol : 0 < tol) :
    |b - a| ≤ tol * 2 ^ bisectionFuel tol a b := by
  unfold bisectionFuel
  have h0 : (0 : ℚ) ≤ |b - a| / tol := by positivity
  have h1 : |b - a| / tol ≤ (⌈|b - a| / tol⌉ : ℚ) := Int.le_ceil _
  have h2 : (0 : ℤ) ≤ ⌈|b - a| / tol⌉ := Int.ceil_nonneg h0
  have h3 : ((⌈|b - a| / tol⌉.toNat : ℕ) : ℚ) = ((⌈|b - a| / tol⌉ : ℤ) : ℚ) := by
    exact_mod_cast Int.toNat_of_nonneg h2
  have h4 : ((⌈|b - a| / tol⌉.toNat : ℕ) : ℚ)
      ≤ 2 ^ (⌈|b - a| / tol⌉.toNat + 1) := by
    have h5 : (⌈|b - a| / tol⌉.toNat : ℕ) < 2 ^ (⌈|b - a| / tol⌉.toNat + 1) :=
      lt_of_lt_of_le (Nat.lt_two_pow _)
        (Nat.pow_le_pow_right (by norm_num) (Nat.le_succ _))
    exact_mod_cast h5.le
  have h6 : |b - a| ≤ (⌈|b - a| / tol⌉ : ℚ) * tol := by
    rw [div_le_iff₀ htol] at h1
    exact h1
  calc |b - a| ≤ (⌈|b - a| / tol⌉ : ℚ) * tol := h6
    _ = ((⌈|b - a| / tol⌉.toNat : ℕ) : ℚ) * tol := by rw [h3]
    _ ≤ 2 ^ (⌈|b - a| / tol⌉.toNat + 1) * tol := by
        exact mul_le_mul_of_nonneg_right h4 htol.le
    _ = tol * 2 ^ (⌈|b - a| / tol⌉.toNat + 1) := by ring

/-- After the reset phase (and the swap phase, which only exchanges the
roles of the two values), `fb` and `fc` have non-positive product,
provided the loop invariant held on entry: a sign change sits in `(a, b)`
or in `(b, c)`. -/
lemma dekkerResetSwap_sign (s : DekkerState)
    (hinv : s.fa * s.fb ≤ 0 ∨ s.fb * s.fc ≤ 0) :
    (dekkerSwap (dekkerReset s)).fb * (dekkerSwap (dekkerReset s)).fc ≤ 0 := by
  have hreset : (dekkerReset s).fb * (dekkerReset s).fc ≤ 0 := by
    unfold dekkerReset
    split_ifs with h
    · rcases hinv with h1 | h1
      · simpa [mul_comm] using h1
      · exact absurd h (not_lt.mpr h1)
    · exact not_lt.mp h
  unfold dekkerSwap
  split_ifs with h
  · simpa [mul_comm] using hreset
  · exact hreset

/-- After the swap phase, `b` carries the smaller absolute function
value. -/
lemma dekkerSwap_abs (s : DekkerState) :
    |(dekkerSwap s).fb| ≤ |(dekkerSwap s).fc| := by
  unfold dekkerSwap
  split_ifs with h
  · exact h.le
  · exact not_lt.mp h

/-- The accepted secant point of Dekker's method lies between `b` and `m`:
a nonnegative numerator `p` passing the direction-aware test
`p ≤ (m - b) * q` with `q ≠ 0` keeps `b + p/q` inside the directed
interval. -/
lemma secant_point_between (b m p q : ℚ) (hp : 0 ≤ p)
    (hacc : p ≤ (m - b) * q) (hq : q ≠ 0) :
    min b m ≤ b + p / q ∧ b + p / q ≤ max b m := by
  rcases hq.lt_or_lt with hqneg | hqpos
  · have h1 : m - b ≤ p / q := (le_div_iff_of_neg hqneg).mpr hacc
    have h2 : p / q ≤ 0 := div_nonpos_iff.mpr (Or.inl ⟨hp, hqneg.le⟩)
    exact ⟨le_trans (min_le_right _ _) (by linarith),
      le_trans (by linarith) (le_max_left _ _)⟩
  · have h1 : p / q ≤ m - b := (div_le_iff₀ hqpos).mpr hacc
    have h2 : 0 ≤ p / q := div_nonneg hp hqpos.le
    exact ⟨le_trans (min_le_left _ _) (by linarith),
      le_trans (by linarith) (le_max_right _ _)⟩

/-- Any value the Dekker proposal produces lies between the current best
`b` and the midpoint `m = (b + c) / 2`. -/
lemma dekkerProposal_between (a fa b fb c x : ℚ)
    (hx : dekkerProposal a fa b fb c = some x) :
    min b ((b + c) / 2) ≤ x ∧ x ≤ max b ((b + c) / 2) := by
  unfold dekkerProposal at hx
  by_cases hp0 : (b - a) * fb ≥ 0
  · simp only [if_pos hp0] at hx
    by_cases hacc : (b - a) * fb ≤ ((b + c) / 2 - b) * (fa - fb)
    · rw [if_pos hacc] at hx
      by_cases hq : fa - fb = 0
      · rw [if_pos hq] at hx
        exact Option.noConfusion hx
      · rw [if_neg hq] at hx
        rw [← Option.some.inj hx]
        exact secant_point_between b ((b + c) / 2) ((b - a) * fb) (fa - fb)
          hp0 hacc hq
    · rw [if_neg hacc] at hx
      rw [← Option.some.inj hx]
      exact ⟨min_le_right _ _, le_max_right _ _⟩
  · have hp : 0 ≤ -((b - a) * fb) := by linarith [not_le.mp hp0]
    simp only [if_neg hp0] at hx
    by_cases hacc : -((b - a) * fb) ≤ ((b + c) / 2 - b) * (fb - fa)
    · rw [if_pos hacc] at hx
      by_cases hq : fb - fa = 0
      · rw [if_pos hq] at hx
        exact Option.noConfusion hx
      · rw [if_neg hq] at hx
        rw [← Option.some.inj hx]
        exact secant_point_between b ((b + c) / 2) (-((b - a) * fb)) (fb - fa)
          hp hacc hq
    · rw [if_neg hacc] at hx
      rw [← Option.some.inj hx]
      exact ⟨min_le_right _ _, le_max_right _ _⟩

/-- Any value the Dekker proposal produces is either the midpoint
`m = (b + c)/2` or the secant point `b + (b - a) fb / (fa - fb)` built
from `(a, fa)` and `(b, fb)` - both sign branches of the source compute
the same secant value. -/
lemma dekkerProposal_cases (a fa b fb c x : ℚ)
    (hx : dekkerProposal a fa b fb c = some x) :
    x = (b + c) / 2 ∨ x = b + (b - a) * fb / (fa - fb) := by
  unfold dekkerProposal at hx
  by_cases hp0 : (b - a) * fb ≥ 0
  · simp only [if_pos hp0] at hx
    by_cases hacc : (b - a) * fb ≤ ((b + c) / 2 - b) * (fa - fb)
    · rw [if_pos hacc] at hx
      by_cases hq : fa - fb = 0
      · rw [if_pos hq] at hx
        exact Option.noConfusion hx
      · rw [if_neg hq] at hx
        exact Or.inr (Option.some.inj hx).symm
    · rw [if_neg hacc] at hx
      exact Or.inl (Option.some.inj hx).symm
  · simp only [if_neg hp0] at hx
    by_cases hacc : -((b - a) * fb) ≤ ((b + c) / 2 - b) * (fb - fa)
    · rw [if_pos hacc] at hx
      by_cases hq : fb - fa = 0
      · rw [if_pos hq] at hx
        exact Option.noConfusion hx
      · rw [if_neg hq] at hx
        refine Or.inr ?_
        have h : -((b - a) * fb) / (fb - fa) = (b - a) * fb / (fa - fb) := by
          rw [show fa - fb = -(fb - fa) from by ring, div_neg, neg_div]
        rw [← Option.some.inj hx, h]
    · rw [if_neg hacc] at hx
      exact Or.inl (Option.some.inj hx).symm

/-- The Dekker proposal faults exactly on the `0.0/0.0` corner: the secant
denominator vanishes (`fa = fb`) together with the numerator
(`(b - a) * fb = 0`), which is precisely when the acceptance test reads
`0 ≤ 0` and the source divides zero by zero. -/
lemma dekkerProposal_none_iff (a fa b fb c : ℚ) :
    dekkerProposal a fa b fb c = none ↔ fa = fb ∧ (b - a) * fb = 0 := by
  unfold dekkerProposal
  by_cases hp0 : (b - a) * fb ≥ 0
  · simp only [if_pos hp0]
    by_cases hacc : (b - a) * fb ≤ ((b + c) / 2 - b) * (fa - fb)
    · rw [if_pos hacc]
      by_cases hq : fa - fb = 0
      · rw [if_pos hq]
        rw [hq, mul_zero] at hacc
        exact ⟨fun _ => ⟨sub_eq_zero.mp hq, le_antisymm hacc hp0⟩,
          fun _ => rfl⟩
      · rw [if_neg hq]
        constructor
        · intro h
          exact Option.noConfusion h
        · rintro ⟨h1, _⟩
          exact absurd (sub_eq_zero.mpr h1) hq
    · rw [if_neg hacc]
      constructor
      · intro h
        exact Option.noConfusion h
      · rintro ⟨h1, h2⟩
        rw [h2, sub_eq_zero.mpr h1, mul_zero] at hacc
        exact (hacc le_rfl).elim
  · simp only [if_neg hp0]
    by_cases hacc : -((b - a) * fb) ≤ ((b + c) / 2 - b) * (fb - fa)
    · rw [if_pos hacc]
      by_cases hq : fb - fa = 0
      · rw [if_pos hq]
        rw [hq, mul_zero] at hacc
        constructor
        · intro _
          exact absurd (by linarith : (0 : ℚ) ≤ (b - a) * fb) hp0
        · rintro ⟨_, h2⟩
          exact absurd h2.ge hp0
      · rw [if_neg hq]
        constructor
        · intro h
          exact Option.noConfusion h
        · rintro ⟨_, h2⟩
          exact absurd h2.ge hp0
    · rw [if_neg hacc]
      constructor
      · intro h
        exact Option.noConfusion h
      · rintro ⟨_, h2⟩
        exact absurd h2.ge hp0

/-- The secant-update step faults exactly when the proposal does. -/
lemma dekkerSecant_none_iff (f : ℚ → ℚ) (s : DekkerState) :
    dekkerSecant f s = none ↔ dekkerProposal s.a s.fa s.b s.fb s.c = none := by
  unfold dekkerSecant
  cases h : dekkerProposal s.a s.fa s.b s.fb s.c <;> simp

/-! ## Claim theorems -/

/-- Counterexample to claim C5: with `f = 0` (so `f(a) * f(b) = 0 ≤ 0`),
tolerance `1 > 0` and the degenerate bracket `a = b = 0`, the loop body
never runs and `return c` raises `UnboundLocalError` - no midpoint is
returned, contradicting the claim for brackets no longer than the
tolerance. -/
theorem bisection_tight_bracket_unbound_local :
    bisectionMethod 1 zeroFn 0 0 = .err .unboundLocalError := by
  simp only [bisectionMethod, bisectionFuel, zeroFn]
  norm_num
  simp only [bisectionLoop]
  norm_num

/-- Claim C5 as amended: for every objective `f`, bracket with
`f(a) * f(b) ≤ 0`, and tolerance `0 < tol` that is additionally smaller
than the initial interval length `|b - a|` (otherwise the loop body never
assigns `c` and `return c` raises `UnboundLocalError`), bisection
terminates with a midpoint `c` that either satisfies `f c = 0` exactly
(the short-circuit) or is an endpoint of a final sign-changing interval of
length at most `tol` - the iteration having kept, at each step, the half
selected by the sign of `f(a) * f(c)`. -/
theorem bisection_terminates_and_brackets (tol : ℚ) (f : ℚ → ℚ) (a b : ℚ)
    (htol : 0 < tol) (hbr : f a * f b ≤ 0) (hlen : tol < |b - a|) :
    ∃ c, bisectionMethod tol f a b = .val c ∧
      (f c = 0 ∨ ∃ lo hi, f lo * f hi ≤ 0 ∧ |hi - lo| ≤ tol ∧
        (c = lo ∨ c = hi)) := by
  unfold bisectionMethod
  rw [if_neg (not_lt.mpr hbr)]
  exact bisectionLoop_sound tol f (bisectionFuel tol a b) a b none hbr
    (abs_le_fuel tol a b htol) hlen

/-- Witness for amended C5 on `x - 2` over `[0, 100]`. -/
theorem bisection_terminates_and_brackets_witness :
    (0 : ℚ) < 1 ∧ subFn 0 * subFn 100 ≤ 0 ∧ (1 : ℚ) < |(100 : ℚ) - 0| ∧
    (∃ c, bisectionMethod 1 subFn 0 100 = .val c ∧
      (subFn c = 0 ∨ ∃ lo hi, subFn lo * subFn hi ≤ 0 ∧ |hi - lo| ≤ 1 ∧
        (c = lo ∨ c = hi))) :=
  ⟨by norm_num, by norm_num [subFn],
    by rw [abs_of_nonneg] <;> norm_num,
    bisection_terminates_and_brackets 1 subFn 0 100 (by norm_num)
      (by norm_num [subFn]) (by rw [abs_of_nonneg] <;> norm_num)⟩

/-- Claim C3: for every constructed Stock or Future option and every sigma,
in each of the four model variants the put price minus the call price
equals the stored `parityOffset`, independently of sigma. -/
theorem putCallParity_holds (P : MathPrims) (V X K tauD r : ℚ)
    (ot mt : String) (sigma : ℚ) :
    (Stock.putOptionPriceBlackScholes P (mkStock P V X K tauD r ot mt) sigma
        - Stock.callOptionPriceBlackScholes P (mkStock P V X K tauD r ot mt) sigma
      = (mkStock P V X K tauD r ot mt).parityOffset) ∧
    (Stock.putOptionPriceBachelier P (mkStock P V X K tauD r ot mt) sigma
        - Stock.callOptionPriceBachelier P (mkStock P V X K tauD r ot mt) sigma
      = (mkStock P V X K tauD r ot mt).parityOffset) ∧
    (Future.putOptionPriceBlackScholes P (mkFuture P V X K tauD r ot mt) sigma
        - Future.callOptionPriceBlackScholes P (mkFuture P V X K tauD r ot mt) sigma
      = (mkFuture P V X K tauD r ot mt).parityOffset) ∧
    (Future.putOptionPriceBachelier P (mkFuture P V X K tauD r ot mt) sigma
        - Future.callOptionPriceBachelier P (mkFuture P V X K tauD r ot mt) sigma
      = (mkFuture P V X K tauD r ot mt).parityOffset) := by
  refine ⟨?_, ?_, ?_, ?_⟩ <;>
    simp only [Stock.putOptionPriceBlackScholes, Stock.putOptionPriceBachelier,
      Future.putOptionPriceBlackScholes, Future.putOptionPriceBachelier] <;>
    ring

/-- Claim C1: the parity offset stored at construction is NOT
`K e^{-r tau} - X` (resp. `(K - X) e^{-r tau}`) with `tau` the stored
year-fraction `daysToExpiry / 365`: the constructors use the *raw day
count* in the exponent.  At `K = 100`, `X = 100`, `daysToExpiry = 365`,
`r = 1/100` the code's Stock offset is `100 exp(-365/100) - 100` while the
claimed value is `100 exp(-1/100) - 100`; these differ whenever `exp` is
injective (the Future case analogously, with `K = 110`). -/
theorem putCallParityOffset_daycount_mismatch (P : MathPrims)
    (hexp : Function.Injective P.exp) :
    (mkStock P 1 100 100 365 (1 / 100) ("Call") ("BlackScholes")).parityOffset
      ≠ parityOffsetStockSpec P 100 100 (1 / 100) 365 ∧
    (mkFuture P 1 100 110 365 (1 / 100) ("Call") ("BlackScholes")).parityOffset
      ≠ parityOffsetFutureSpec P 110 100 (1 / 100) 365 := by
  constructor
  · intro h
    simp only [mkStock, parityOffsetStockSpec] at h
    have h2 : P.exp (-(1 / 100 * 365)) = P.exp (-(1 / 100 * (365 / 365))) := by
      linarith
    have h3 := hexp h2
    norm_num at h3
  · intro h
    simp only [mkFuture, parityOffsetFutureSpec] at h
    have h2 : P.exp (-(1 / 100 * 365)) = P.exp (-(1 / 100 * (365 / 365))) := by
      linarith
    have h3 := hexp h2
    norm_num at h3

/-- Witness for C1 at the injective identity primitives. -/
theorem putCallParityOffset_daycount_mismatch_witness :
    Function.Injective idPrims.exp ∧
    ((mkStock idPrims 1 100 100 365 (1 / 100) ("Call") ("BlackScholes")).parityOffset
        ≠ parityOffsetStockSpec idPrims 100 100 (1 / 100) 365 ∧
      (mkFuture idPrims 1 100 110 365 (1 / 100) ("Call") ("BlackScholes")).parityOffset
        ≠ parityOffsetFutureSpec idPrims 110 100 (1 / 100) 365) :=
  ⟨fun _ _ h => h,
    putCallParityOffset_daycount_mismatch idPrims (fun _ _ h => h)⟩

/-- Claim C4: when `f(a)` and `f(b)` have positive product, both the
bisection method and Dekker's method return the NaN sentinel (never an
exception), whatever the tolerance and fuel. -/
theorem noSignChange_returns_nan (tol : ℚ) (f : ℚ → ℚ) (a b : ℚ)
    (fuel : ℕ) (h : f a * f b > 0) :
    bisectionMethod tol f a b = .nan ∧ dekkersMethod fuel tol f a b = .nan := by
  constructor
  · simp only [bisectionMethod, if_pos h]
  · simp only [dekkersMethod, if_pos h]

/-- Witness for C4 on the constant objective `1` over `[0, 1]`. -/
theorem noSignChange_returns_nan_witness :
    oneFn 0 * oneFn 1 > 0 ∧
    (bisectionMethod 1 oneFn 0 1 = .nan ∧ dekkersMethod 5 1 oneFn 0 1 = .nan) :=
  ⟨by norm_num [oneFn],
    noSignChange_returns_nan 1 oneFn 0 1 5 (by norm_num [oneFn])⟩

/-- Claim C10: for a Stock option with `r = 0` (all other documented
preconditions satisfied: positive sigma, day count and strike), the
Bachelier call price divides `sigma^2` by `r = 0`, so the guarded-division
embedding of `Stock.callOptionPriceBachelier` hits the division-by-zero
error branch. -/
theorem bachelier_stock_rate_zero_division (P : MathPrims)
    (V X K tauD sigma : ℚ) (hs : 0 < sigma) (ht : 0 < tauD) (hK : 0 < K) :
    callOptionPriceBachelierChecked P
        (mkStock P V X K tauD 0 ("Call") ("Bachelier")) sigma
      = .error .zeroDivisionError := by
  simp only [callOptionPriceBachelierChecked, checkedDiv, mkStock]
  norm_num
  rfl

/-- Witness for C10 at concrete positive inputs. -/
theorem bachelier_stock_rate_zero_division_witness :
    (0 : ℚ) < 1 / 5 ∧ (0 : ℚ) < 30 ∧ (0 : ℚ) < 100 ∧
    callOptionPriceBachelierChecked idPrims
        (mkStock idPrims 1 100 100 30 0 ("Call") ("Bachelier")) (1 / 5)
      = .error .zeroDivisionError :=
  ⟨by norm_num, by norm_num, by norm_num,
    bachelier_stock_rate_zero_division idPrims 1 100 100 30 (1 / 5)
      (by norm_num) (by norm_num) (by norm_num)⟩

/-- Counterexample to claim C7: constructing a Stock option with a
*negative* day count (hence non-positive `timeToExpiry`) succeeds - no
`InvalidInput` (indeed, no error at all) is raised at the Option
boundary. -/
theorem construction_accepts_nonpositive_inputs :
    getProduct idPrims ("Stock") 1 100 100 (-365) (1 / 100) ("Call")
        ("BlackScholes")
      = .ok (mkStock idPrims 1 100 100 (-365) (1 / 100) ("Call")
        ("BlackScholes")) := by
  simp [getProduct]

/-- Claim C7 as amended: the source performs no domain validation
whatsoever.  For every input with non-positive day count or strike, Stock
and Future construction succeed, and `getOptionPrice` hands back a price
function instead of rejecting - `InvalidInput` does not exist in the
code. -/
theorem no_invalid_input_rejection (P : MathPrims) (V X K tauD r : ℚ)
    (hneg : tauD ≤ 0 ∨ K ≤ 0) :
    getProduct P ("Stock") V X K tauD r ("Call") ("BlackScholes")
      = .ok (mkStock P V X K tauD r ("Call") ("BlackScholes")) ∧
    getProduct P ("Future") V X K tauD r ("Put") ("Bachelier")
      = .ok (mkFuture P V X K tauD r ("Put") ("Bachelier")) ∧
    OptionData.getOptionPrice P (mkStock P V X K tauD r ("Call") ("BlackScholes"))
      = .ok (OptionData.callOptionPriceBlackScholes P
          (mkStock P V X K tauD r ("Call") ("BlackScholes"))) ∧
    OptionData.getOptionPrice P (mkFuture P V X K tauD r ("Put") ("Bachelier"))
      = .ok (OptionData.putOptionPriceBachelier P
          (mkFuture P V X K tauD r ("Put") ("Bachelier"))) := by
  refine ⟨?_, ?_, ?_, ?_⟩ <;>
    simp [getProduct, OptionData.getOptionPrice, mkStock, mkFuture]

/-- Witness for amended C7 at a negative day count. -/
theorem no_invalid_input_rejection_witness :
    ((-365 : ℚ) ≤ 0 ∨ (100 : ℚ) ≤ 0) ∧
    (getProduct idPrims ("Stock") 1 100 100 (-365) (1 / 100) ("Call")
          ("BlackScholes")
        = .ok (mkStock idPrims 1 100 100 (-365) (1 / 100) ("Call")
          ("BlackScholes")) ∧
      getProduct idPrims ("Future") 1 100 100 (-365) (1 / 100) ("Put")
          ("Bachelier")
        = .ok (mkFuture idPrims 1 100 100 (-365) (1 / 100) ("Put")
          ("Bachelier")) ∧
      OptionData.getOptionPrice idPrims
          (mkStock idPrims 1 100 100 (-365) (1 / 100) ("Call") ("BlackScholes"))
        = .ok (OptionData.callOptionPriceBlackScholes idPrims
            (mkStock idPrims 1 100 100 (-365) (1 / 100) ("Call")
              ("BlackScholes"))) ∧
      OptionData.getOptionPrice idPrims
          (mkFuture idPrims 1 100 100 (-365) (1 / 100) ("Put") ("Bachelier"))
        = .ok (OptionData.putOptionPriceBachelier idPrims
            (mkFuture idPrims 1 100 100 (-365) (1 / 100) ("Put")
              ("Bachelier")))) :=
  ⟨Or.inl (by norm_num),
    no_invalid_input_rejection idPrims 1 100 100 (-365) (1 / 100)
      (Or.inl (by norm_num))⟩

/-- Counterexample to claim C8: an option side outside `{Call, Put}` does
NOT fail at construction time - the factory returns the object, and the
`NameError` surfaces only when a solve (`impliedVol`) first calls
`getOptionPrice`. -/
theorem side_error_raised_at_price_time_not_construction :
    getProduct idPrims ("Stock") 1 100 100 365 (1 / 100) ("Banana")
        ("BlackScholes")
      = .ok (mkStock idPrims 1 100 100 365 (1 / 100) ("Banana")
        ("BlackScholes")) ∧
    OptionData.impliedVol idPrims (bisectionMethod 1)
        (mkStock idPrims 1 100 100 365 (1 / 100) ("Banana") ("BlackScholes"))
      = .error .nameErrorOptionType := by
  constructor
  · simp [getProduct]
  · simp [OptionData.impliedVol, OptionData.getOptionPrice, mkStock]

/-- Claim C8 as amended: an unknown instrument kind fails at the factory
(`KeyError`); an unknown option side or convention does NOT fail at
construction - the option is built, and `UnknownOptionSide` /
`UnknownConvention` (`NameError`) are raised by `getOptionPrice`, i.e. at
the first price or solve call. -/
theorem construction_error_timing (P : MathPrims) (V X K tauD r : ℚ)
    (kind ot mt : String)
    (hkind : kind ≠ ("Stock") ∧ kind ≠ ("Future"))
    (hot : ot ≠ ("Call") ∧ ot ≠ ("Put"))
    (hmt : mt ≠ ("BlackScholes") ∧ mt ≠ ("Bachelier")) :
    getProduct P kind V X K tauD r ot mt = .error .keyError ∧
    getProduct P ("Stock") V X K tauD r ot ("BlackScholes")
      = .ok (mkStock P V X K tauD r ot ("BlackScholes")) ∧
    OptionData.getOptionPrice P (mkStock P V X K tauD r ot ("BlackScholes"))
      = .error .nameErrorOptionType ∧
    OptionData.getOptionPrice P (mkStock P V X K tauD r ("Call") mt)
      = .error .nameErrorModelType := by
  refine ⟨?_, ?_, ?_, ?_⟩ <;>
    simp [getProduct, OptionData.getOptionPrice, mkStock,
      hkind.1, hkind.2, hot.1, hot.2, hmt.1, hmt.2]

/-- Witness for amended C8 at concrete unknown strings. -/
theorem construction_error_timing_witness :
    (("Banana" : String) ≠ ("Stock") ∧ ("Banana" : String) ≠ ("Future")) ∧
    (("Mango" : String) ≠ ("Call") ∧ ("Mango" : String) ≠ ("Put")) ∧
    (("Kiwi" : String) ≠ ("BlackScholes") ∧ ("Kiwi" : String) ≠ ("Bachelier")) ∧
    (getProduct idPrims ("Banana") 1 100 100 365 (1 / 100) ("Mango") ("Kiwi")
        = .error .keyError ∧
      getProduct idPrims ("Stock") 1 100 100 365 (1 / 100) ("Mango")
          ("BlackScholes")
        = .ok (mkStock idPrims 1 100 100 365 (1 / 100) ("Mango")
          ("BlackScholes")) ∧
      OptionData.getOptionPrice idPrims
          (mkStock idPrims 1 100 100 365 (1 / 100) ("Mango") ("BlackScholes"))
        = .error .nameErrorOptionType ∧
      OptionData.getOptionPrice idPrims
          (mkStock idPrims 1 100 100 365 (1 / 100) ("Call") ("Kiwi"))
        = .error .nameErrorModelType) :=
  ⟨⟨by simp, by simp⟩, ⟨by simp, by simp⟩, ⟨by simp, by simp⟩,
    construction_error_timing idPrims 1 100 100 365 (1 / 100)
      ("Banana") ("Mango") ("Kiwi") ⟨by simp, by simp⟩ ⟨by simp, by simp⟩
      ⟨by simp, by simp⟩⟩

/-- Counterexample to claim C9: `cexOpt` has its unique implied volatility
at `200`.  The source's `impliedVol` returns the NaN sentinel because it
always hands the root finder the default bracket `[0, 100]`, while the
spec-modelled `solveImpliedVol` with the caller-chosen bracket
`[150, 250]` finds the root exactly - the bracket is not caller
configuration in the code. -/
theorem impliedVol_ignores_caller_bracket_cex :
    OptionData.impliedVol cexPrims (bisectionMethod 1) cexOpt = .ok .nan ∧
    solveImpliedVolSpec cexPrims (bisectionMethod 1) cexOpt 150 250
      = .ok (.val 200) := by
  constructor
  · rw [impliedVol_eq cexPrims _ cexOpt _
      (getOptionPrice_call_bachelier _ _ rfl rfl)]
    have hc : (0 : ℚ) <
        (OptionData.callOptionPriceBachelier cexPrims cexOpt 0 - cexOpt.V_mkt) *
          (OptionData.callOptionPriceBachelier cexPrims cexOpt 100 - cexOpt.V_mkt) := by
      rw [cexPriceAt, cexPriceAt]
      norm_num [cexOpt, mkFuture]
    simp only [bisectionMethod, if_pos hc]
  · rw [show solveImpliedVolSpec cexPrims (bisectionMethod 1) cexOpt 150 250
        = .ok (bisectionMethod 1
            (fun x => OptionData.callOptionPriceBachelier cexPrims cexOpt x
              - cexOpt.V_mkt) 150 250) from by
      simp [solveImpliedVolSpec,
        getOptionPrice_call_bachelier cexPrims cexOpt rfl rfl]]
    have hv : cexOpt.V_mkt = 200 := rfl
    have hc : ¬ ((0 : ℚ) <
        (OptionData.callOptionPriceBachelier cexPrims cexOpt 150 - cexOpt.V_mkt) *
          (OptionData.callOptionPriceBachelier cexPrims cexOpt 250 - cexOpt.V_mkt)) := by
      rw [cexPriceAt, cexPriceAt, hv]
      norm_num
    simp only [bisectionMethod, if_neg hc, bisectionFuel]
    have habs : |(250 : ℚ) - 150| > 1 := by rw [abs_of_nonneg] <;> norm_num
    simp only [bisectionLoop, if_pos habs]
    have hmid : ((150 : ℚ) + 250) / 2 = 200 := by norm_num
    have hzero : OptionData.callOptionPriceBachelier cexPrims cexOpt 200
        - cexOpt.V_mkt = 0 := by
      rw [cexPriceAt, hv]; norm_num
    rw [hmid, if_pos hzero]

/-- Claim C9 as amended: `Option.impliedVol` accepts no bracket arguments;
the configured root-find method is always invoked with its signature
defaults `a = 0`, `b = 100`, so whenever the mispricing objective does not
change sign on `[0, 100]` the solve yields the NaN sentinel for every
tolerance and fuel - the caller cannot redirect the solve to another
bracket. -/
theorem impliedVol_bracket_is_fixed (P : MathPrims) (o : OptionData)
    (pf : ℚ → ℚ) (tol : ℚ) (fuel : ℕ)
    (hok : OptionData.getOptionPrice P o = .ok pf)
    (hsign : (pf 0 - o.V_mkt) * (pf 100 - o.V_mkt) > 0) :
    OptionData.impliedVol P (bisectionMethod tol) o = .ok .nan ∧
    OptionData.impliedVol P (dekkersMethod fuel tol) o = .ok .nan := by
  constructor
  · rw [impliedVol_eq P _ o pf hok]
    simp only [bisectionMethod, if_pos hsign]
  · rw [impliedVol_eq P _ o pf hok]
    simp only [dekkersMethod, if_pos hsign]

/-- Witness for amended C9 at the concrete out-of-bracket option. -/
theorem impliedVol_bracket_is_fixed_witness :
    OptionData.getOptionPrice cexPrims cexOpt
      = .ok (OptionData.callOptionPriceBachelier cexPrims cexOpt) ∧
    (OptionData.callOptionPriceBachelier cexPrims cexOpt 0 - cexOpt.V_mkt) *
        (OptionData.callOptionPriceBachelier cexPrims cexOpt 100 - cexOpt.V_mkt)
      > 0 ∧
    (OptionData.impliedVol cexPrims (bisectionMethod (1 / 100000000)) cexOpt
        = .ok .nan ∧
      OptionData.impliedVol cexPrims (dekkersMethod 1000 (1 / 100000000)) cexOpt
        = .ok .nan) :=
  ⟨getOptionPrice_call_bachelier cexPrims cexOpt rfl rfl,
    by rw [cexPriceAt, cexPriceAt, show cexOpt.V_mkt = 200 from rfl]; norm_num,
    impliedVol_bracket_is_fixed cexPrims cexOpt _ (1 / 100000000) 1000
      (getOptionPrice_call_bachelier cexPrims cexOpt rfl rfl)
      (by rw [cexPriceAt, cexPriceAt, show cexOpt.V_mkt = 200 from rfl]
          norm_num)⟩

/-- Claim C6: each Dekker iteration is the reset / swap / midpoint /
direction-aware secant-or-midpoint / contrapoint-update sequence described
by the spec (formalised by `DekkerIterationSpec`), for every state
satisfying the loop invariant that a sign change lies in `(a, b)` or in
`(b, c)`; the body faults exactly on the `0.0/0.0` secant corner, the loop
iterates exactly this composition while `|b - a| > tol` (aborting on a
fault) and returns `b` on exit. -/
theorem dekkers_iteration_follows_spec (tol : ℚ) (f : ℚ → ℚ)
    (s : DekkerState) (hinv : s.fa * s.fb ≤ 0 ∨ s.fb * s.fc ≤ 0) :
    DekkerIterationSpec tol f s := by
  unfold DekkerIterationSpec
  refine ⟨dekkerResetSwap_sign s hinv, dekkerSwap_abs _, rfl, ?_, ?_,
    ?_, ?_, ?_⟩
  · intro t ht
    have ht2 : dekkerSecant f (dekkerSwap (dekkerReset s)) = some t := ht
    unfold dekkerSecant at ht2
    cases hprop : dekkerProposal (dekkerSwap (dekkerReset s)).a
        (dekkerSwap (dekkerReset s)).fa (dekkerSwap (dekkerReset s)).b
        (dekkerSwap (dekkerReset s)).fb (dekkerSwap (dekkerReset s)).c with
    | none =>
      rw [hprop] at ht2
      exact Option.noConfusion ht2
    | some x =>
      rw [hprop] at ht2
      have ht3 := Option.some.inj ht2
      rw [← ht3]
      exact ⟨rfl, rfl, rfl, rfl, rfl,
        dekkerProposal_cases _ _ _ _ _ x hprop,
        (dekkerProposal_between _ _ _ _ _ x hprop).1,
        (dekkerProposal_between _ _ _ _ _ x hprop).2⟩
  · rw [show dekkerBody f s = dekkerSecant f (dekkerSwap (dekkerReset s))
      from rfl]
    rw [dekkerSecant_none_iff, dekkerProposal_none_iff]
  · intro n hg t hb
    simp only [dekkersLoop, if_pos hg, hb]
  · intro n hg hb
    simp only [dekkersLoop, if_pos hg, hb]
  · intro h n
    cases n <;> simp only [dekkersLoop, if_neg h]

/-- Witness for C6 at a concrete bracketing state. -/
theorem dekkers_iteration_follows_spec_witness :
    (dkState0.fa * dkState0.fb ≤ 0 ∨ dkState0.fb * dkState0.fc ≤ 0) ∧
    DekkerIterationSpec 1 dekFn dkState0 :=
  ⟨Or.inl (by norm_num [dkState0]),
    dekkers_iteration_follows_spec 1 dekFn dkState0
      (Or.inl (by norm_num [dkState0]))⟩

end MakoIV
